import Mathlib

/-!
# Brigade: naming helpers, built-in principals, Observer and clients

A shallow embedding of

* `v2/internal/kubernetes/common.go` (resource names, `GenerateLabel`),
* `v2/apiserver/internal/system/authn/named_principals.go` (role assignments
  of the root, scheduler, observer and worker principals),
* `v2/observer/observer.go` (`getObserverConfig`, `run`,
  `namespacedPodName`),
* `brig/cmd/brig/commands/app.go` (`kubeConfigPath`),
* `sdk/v2/system/api_client.go` (`UnversionedPing`),

followed by the properties established about them.

A Go `string` is an immutable sequence of bytes: `len` counts bytes and
`s[i:j]` cuts at byte offsets.  It is therefore embedded as a list of bytes.
-/

namespace Brigade

/-! ## Go strings -/

/-- A Go string: a finite sequence of bytes. -/
abbrev GoString := List UInt8

/-- The bytes of an ASCII string literal of the source. -/
def ascii (s : String) : GoString := s.data.map (fun c => c.toNat.toUInt8)

/-- Go's `len(s)`: the number of bytes, as an `int`. -/
def len (s : GoString) : Int := (s.length : Int)

/-- Go's slice expression `s[lo:hi]` on a string.  It panics (here: `none`)
unless `0 ≤ lo ≤ hi ≤ len(s)`; otherwise it is the bytes at offsets
`lo, …, hi - 1`. -/
def goSlice (s : GoString) (lo hi : Int) : Option GoString :=
  if 0 ≤ lo ∧ lo ≤ hi ∧ hi ≤ len s then
    some ((s.drop lo.toNat).take (hi.toNat - lo.toNat))
  else
    none

/-! ## `v2/internal/kubernetes/common.go` -/

namespace kubernetes

/-- Go: `func EventSecretName(eventID string) string`. -/
def EventSecretName (eventID : GoString) : GoString := eventID

/-- Go: `func WorkspacePVCName(eventID string) string`. -/
def WorkspacePVCName (eventID : GoString) : GoString := eventID

/-- Go: `func WorkerPodName(eventID string) string`. -/
def WorkerPodName (eventID : GoString) : GoString := eventID

/-- Go: `func JobSecretName(eventID, jobName string) string`:
`fmt.Sprintf("%s-%s", eventID, jobName)`. -/
def JobSecretName (eventID jobName : GoString) : GoString :=
  eventID ++ ascii "-" ++ jobName

/-- Go: `func JobPodName(eventID, jobName string) string`:
`fmt.Sprintf("%s-%s", eventID, jobName)`. -/
def JobPodName (eventID jobName : GoString) : GoString :=
  eventID ++ ascii "-" ++ jobName

/-- Go: `func GenerateLabel(label string) string`.  The two slice expressions can
panic in Go, so the embedding is fallible: `none` stands for a run-time panic.
```go
if len(label) > 63 {
    return label[:54] + "..." + label[len(label)-6:]
}
return label
``` -/
def GenerateLabel (label : GoString) : Option GoString :=
  if len label > 63 then
    match goSlice label 0 54, goSlice label (len label - 6) (len label) with
    | some head, some tail => some (head ++ ascii "..." ++ tail)
    | _, _ => none
  else
    some label

end kubernetes

/-! ## Authorization types (`apiserver/internal/lib/authz`, `internal/core`,
`internal/system`) -/

namespace libAuthz

/-- Modelled from the spec: the system-level role constants
`system.RoleAdmin`, `system.RoleReader`, `system.RoleEventCreator`,
`system.RoleProjectCreator`, `core.RoleScheduler`, `core.RoleObserver` and
`core.RoleWorker` (all of type `libAuthz.Role`) are declared in packages that
are not part of the sources at hand.  The spec lists them as the distinct
named roles Admin, Reader, EventCreator, ProjectCreator, Scheduler, Observer
and Worker; each constant is a constructor here. -/
inductive Role where
  | RoleAdmin
  | RoleReader
  | RoleEventCreator
  | RoleProjectCreator
  | RoleScheduler
  | RoleObserver
  | RoleWorker
  deriving DecidableEq, Repr

/-- Modelled from the spec: `libAuthz.RoleScopeGlobal`, declared outside the
sources at hand, is the global scope `"*"`. -/
def RoleScopeGlobal : GoString := ascii "*"

/-- Go: `libAuthz.RoleAssignment`, with the two fields the composite literals of
`named_principals.go` set.  A field that a literal leaves out has Go's zero
value, the empty string: that is an unscoped assignment. -/
structure RoleAssignment where
  Role : Role
  Scope : GoString := []
  deriving DecidableEq, Repr

/-- Modelled from the spec: the permission check is implemented outside the
sources at hand.  "Permission check for operation Op requiring role R with
required scope S: succeeds iff the principal has an assignment whose role
equals R and whose scope equals S or `*`." -/
def permissionCheck (assignments : List RoleAssignment) (R : Role)
    (S : GoString) : Bool :=
  assignments.any fun ra =>
    ra.Role == R && (ra.Scope == S || ra.Scope == RoleScopeGlobal)

end libAuthz

namespace core

/-- Modelled from the spec: the project-level role constants
`core.RoleProjectAdmin`, `core.RoleProjectDeveloper` and
`core.RoleProjectUser` are declared outside the sources at hand; the spec
lists them as ProjectAdmin, ProjectDeveloper and ProjectUser. -/
inductive ProjectRole where
  | RoleProjectAdmin
  | RoleProjectDeveloper
  | RoleProjectUser
  deriving DecidableEq, Repr

/-- Modelled from the spec: `core.ProjectRoleScopeGlobal`, declared outside
the sources at hand, is the global project scope `"*"`. -/
def ProjectRoleScopeGlobal : GoString := ascii "*"

/-- Go: `core.ProjectRoleAssignment`, with the two fields the composite literals
of `named_principals.go` set. -/
structure ProjectRoleAssignment where
  ProjectID : GoString := []
  Role : ProjectRole
  deriving DecidableEq, Repr

end core

/-! ## `v2/apiserver/internal/system/authn/named_principals.go` -/

namespace authn

open libAuthz libAuthz.Role core core.ProjectRole

/-- Go: `type rootPrincipal struct{}`. -/
structure rootPrincipal where
  deriving DecidableEq, Repr

/-- Go: `type schedulerPrincipal struct{}`. -/
structure schedulerPrincipal where
  deriving DecidableEq, Repr

/-- Go: `type observerPrincipal struct{}`. -/
structure observerPrincipal where
  deriving DecidableEq, Repr

/-- Go: `type workerPrincipal struct { eventID string }`. -/
structure workerPrincipal where
  eventID : GoString
  deriving DecidableEq, Repr

/-- The singleton `root = &rootPrincipal{}`. -/
def root : rootPrincipal := {}

/-- The singleton `scheduler = &schedulerPrincipal{}`. -/
def scheduler : schedulerPrincipal := {}

/-- The singleton `observer = &observerPrincipal{}`. -/
def observer : observerPrincipal := {}

/-- Go: `func (r *rootPrincipal) RoleAssignments() []libAuthz.RoleAssignment`. -/
def rootPrincipal.RoleAssignments (_r : rootPrincipal) : List RoleAssignment :=
  [ { Role := RoleAdmin },
    { Role := RoleReader },
    { Role := RoleEventCreator, Scope := RoleScopeGlobal },
    { Role := RoleProjectCreator } ]

/-- Go: `func (r *rootPrincipal) ProjectRoleAssignments()
[]core.ProjectRoleAssignment`. -/
def rootPrincipal.ProjectRoleAssignments (_r : rootPrincipal) :
    List ProjectRoleAssignment :=
  [ { ProjectID := ProjectRoleScopeGlobal, Role := RoleProjectAdmin },
    { ProjectID := ProjectRoleScopeGlobal, Role := RoleProjectDeveloper },
    { ProjectID := ProjectRoleScopeGlobal, Role := RoleProjectUser } ]

/-- Go: `func (s *schedulerPrincipal) RoleAssignments()
[]libAuthz.RoleAssignment`. -/
def schedulerPrincipal.RoleAssignments (_s : schedulerPrincipal) :
    List RoleAssignment :=
  [ { Role := RoleReader },
    { Role := RoleScheduler } ]

/-- Go: `func (o *observerPrincipal) RoleAssignments()
[]libAuthz.RoleAssignment`. -/
def observerPrincipal.RoleAssignments (_o : observerPrincipal) :
    List RoleAssignment :=
  [ { Role := RoleReader },
    { Role := RoleObserver } ]

/-- Go: `func (w *workerPrincipal) RoleAssignments() []libAuthz.RoleAssignment`. -/
def workerPrincipal.RoleAssignments (w : workerPrincipal) :
    List RoleAssignment :=
  [ { Role := RoleReader },
    { Role := RoleWorker, Scope := w.eventID } ]

/-- Go: `func worker(eventID string) *workerPrincipal`. -/
def worker (eventID : GoString) : workerPrincipal :=
  { eventID := eventID }

end authn

/-! ## `v2/observer/observer.go`: configuration -/

namespace observer

/-- Go's `time.Duration`: a count of nanoseconds. -/
abbrev Duration := Int

/-- Go: `time.Second`. -/
def Second : Duration := 1000000000

/-- Go: `time.Minute`. -/
def Minute : Duration := 60 * Second

/-- A Go `error` value; `none` is `nil`. -/
abbrev error := Option String

/-- The process environment: the value of each variable that is set. -/
abbrev Environ := GoString → Option GoString

/-- Go: `type observerConfig struct`. -/
structure observerConfig where
  delayBeforeCleanup : Duration := 0
  healthcheckInterval : Duration := 0
  deriving DecidableEq, Repr

/-- Modelled from the spec: `os.GetDurationFromEnvVar` belongs to the package
`v2/internal/os`, which is not part of the sources at hand.  Per the spec a
duration variable of the environment has a default: the result is the
variable's duration when it is set and the default when it is not.  A value
that `parseDuration` (Go's `time.ParseDuration`) rejects is an error. -/
def GetDurationFromEnvVar (parseDuration : GoString → Option Duration)
    (environ : Environ) (name : GoString) (defaultValue : Duration) :
    Duration × error :=
  match environ name with
  | none => (defaultValue, none)
  | some value =>
    match parseDuration value with
    | some d => (d, none)
    | none => (0, some "value was not parsable as a duration")

/-- Go: `func getObserverConfig() (observerConfig, error)`, with the process
environment it reads made explicit.
```go
config := observerConfig{}
var err error
config.healthcheckInterval = 30 * time.Second
config.delayBeforeCleanup, err =
    os.GetDurationFromEnvVar("DELAY_BEFORE_CLEANUP", time.Minute)
return config, err
``` -/
def getObserverConfig (parseDuration : GoString → Option Duration)
    (environ : Environ) : observerConfig × error :=
  let config : observerConfig := {}
  let config := { config with healthcheckInterval := 30 * Second }
  let r := GetDurationFromEnvVar parseDuration environ
    (ascii "DELAY_BEFORE_CLEANUP") Minute
  let config := { config with delayBeforeCleanup := r.1 }
  (config, r.2)

/-- An environment in which only `HEALTHCHECK_INTERVAL` is set, to `10s`. -/
def environHealthcheck10s : Environ := fun name =>
  if name = ascii "HEALTHCHECK_INTERVAL" then some (ascii "10s") else none

/-- A duration reader that understands the one value `10s`. -/
def parseDuration10s : GoString → Option Duration := fun value =>
  if value = ascii "10s" then some (10 * Second) else none

end observer

/-! ## The built-in principals as implementations of one interface -/

namespace authn

open libAuthz

/-- The four implementations of the `libAuthn.Principal` interface that
`named_principals.go` declares: a value of the interface holds one of them. -/
inductive Principal where
  | ofRoot (r : rootPrincipal)
  | ofScheduler (s : schedulerPrincipal)
  | ofObserver (o : observerPrincipal)
  | ofWorker (w : workerPrincipal)
  deriving DecidableEq, Repr

/-- The interface method `RoleAssignments()`, dispatched on the
implementation. -/
def Principal.RoleAssignments : Principal → List RoleAssignment
  | .ofRoot r => r.RoleAssignments
  | .ofScheduler s => s.RoleAssignments
  | .ofObserver o => o.RoleAssignments
  | .ofWorker w => w.RoleAssignments

/-- A principal holds a role when one of its assignments names that role,
whatever the scope. -/
def Principal.holds (p : Principal) (R : Role) : Bool :=
  p.RoleAssignments.any fun ra => ra.Role == R

end authn

/-! ## `v2/observer/observer.go`: the supervisor -/

namespace observer

/-- The context `run` selects on, `ctx, cancel := context.WithCancel(ctx)`,
as it stands when the first `select` fires: `Err` is what `ctx.Err()` returns.
Until `cancel` is called it is done exactly when the parent context is. -/
structure Context where
  Err : error
  deriving DecidableEq, Repr

/-- Whether `ctx.Done()` is closed.  The `context` package documents: "If Done
is not yet closed, Err returns nil. If Done is closed, Err returns a non-nil
error explaining why". -/
def Context.Done (ctx : Context) : Bool := ctx.Err.isSome

/-- The case of the first `select` of `run` that fires: a value arrives on
`o.errCh`, or `ctx.Done()` is closed. -/
inductive FirstSelect where
  | errCh (err : error)
  | ctxDone
  deriving DecidableEq, Repr

/-- The case of the second `select` of `run` that fires: `doneCh` is closed
(all loops have returned) or the three seconds of `time.After` have passed. -/
inductive SecondSelect where
  | doneCh
  | timeAfter
  deriving DecidableEq, Repr

/-- What the goroutine of `run` does, in order. -/
inductive Step where
  | goRunHealthcheckLoop
  | goSyncWorkerPods
  | goSyncJobPods
  | recvErrCh
  | recvCtxDone
  | cancel
  | goWait
  | recvDoneCh
  | recvTimeAfter
  deriving DecidableEq, Repr

/-- Go: `func (o *observer) run(ctx context.Context) error`, as a function of
the cases its two `select` statements take.  The result is the returned error
and the steps taken; the last `cancel` is the deferred one.
```go
var err error
select {
case err = <-o.errCh:
    cancel() // Shut it all down
case <-ctx.Done():
    err = ctx.Err()
}
...
select {
case <-doneCh:
case <-time.After(3 * time.Second):
}
return err
``` -/
def run (ctx : Context) (first : FirstSelect) (second : SecondSelect) :
    error × List Step :=
  let started := [Step.goRunHealthcheckLoop, Step.goSyncWorkerPods,
    Step.goSyncJobPods]
  let r : error × List Step :=
    match first with
    | .errCh e => (e, [Step.recvErrCh, Step.cancel])
    | .ctxDone => (ctx.Err, [Step.recvCtxDone])
  let drained : List Step :=
    match second with
    | .doneCh => [Step.goWait, Step.recvDoneCh]
    | .timeAfter => [Step.goWait, Step.recvTimeAfter]
  (r.1, started ++ r.2 ++ drained ++ [Step.cancel])

/-- Go: `func namespacedPodName(namespace, name string) string`:
`fmt.Sprintf("%s:%s", namespace, name)`. -/
def namespacedPodName (namespace_ name : GoString) : GoString :=
  namespace_ ++ ascii ":" ++ name

end observer

/-! ## `brig/cmd/brig/commands/app.go` -/

namespace commands

/-- Modelled from the spec: the constant `kubeConfig` that `kubeConfigPath`
looks up is declared in another file of the package, not part of the sources
at hand.  The help text of the `--kubeconfig` flag ("overrides $KUBECONFIG")
and the usage text name the variable: `KUBECONFIG`. -/
def kubeConfig : GoString := ascii "KUBECONFIG"

/-- Go: `func kubeConfigPath() string`, with what it reads made explicit: the
package variable `globalKubeConfig` (bound to the `--kubeconfig` flag), the
process environment (`os.LookupEnv`), and the library function `os.ExpandEnv`.
```go
if globalKubeConfig != "" {
    return globalKubeConfig
}
if v, ok := os.LookupEnv(kubeConfig); ok {
    return v
}
return os.ExpandEnv("$HOME/.kube/config")
``` -/
def kubeConfigPath (ExpandEnv : GoString → GoString)
    (environ : observer.Environ) (globalKubeConfig : GoString) : GoString :=
  if globalKubeConfig ≠ [] then
    globalKubeConfig
  else
    match environ kubeConfig with
    | some v => v
    | none => ExpandEnv (ascii "$HOME/.kube/config")

end commands

/-! ## `sdk/v2/system/api_client.go` -/

namespace system

/-- A non-nil Go error: one made elsewhere, or `errors.Wrap(cause, msg)`. -/
inductive GoError where
  | mk (msg : String)
  | wrap (cause : GoError) (msg : String)
  deriving DecidableEq, Repr

/-- A Go `error` value; `none` is `nil`. -/
abbrev error := Option GoError

/-- Go: `errors.Wrap(err, message)` of `github.com/pkg/errors`: `nil` for a
`nil` error, otherwise the error annotated with the message. -/
def errorsWrap (err : error) (message : String) : error :=
  err.map fun e => GoError.wrap e message

/-- The part of an `*http.Response` that `UnversionedPing` uses: its `Body`,
given by what `ioutil.ReadAll(resp.Body)` returns. -/
structure Response where
  readAllBody : List UInt8 × error
  deriving DecidableEq, Repr

/-- How a Go function call ends: it returns, or it panics. -/
inductive Outcome (α : Type) where
  | returned (value : α)
  | panicked (reason : String)
  deriving DecidableEq, Repr

/-- Go: `func (a *apiClient) UnversionedPing(ctx context.Context) ([]byte,
error)`, as a function of what `a.SubmitRequest` returns: a response pointer
(`none` is `nil`) and an error.  The statement `defer resp.Body.Close()` comes
before the error check; executing it evaluates `resp.Body`, which panics on a
`nil` pointer.  A `nil` byte slice is `none`.
```go
resp, err := a.SubmitRequest(...)
defer resp.Body.Close()
if err != nil {
    return nil, errors.Wrap(err, "error submitting request")
}
respBodyBytes, err := ioutil.ReadAll(resp.Body)
if err != nil {
    return nil, errors.Wrap(err, "error reading response body")
}
return respBodyBytes, nil
``` -/
def UnversionedPing (submitted : Option Response × error) :
    Outcome (Option (List UInt8) × error) :=
  match submitted.1 with
  | none => .panicked "invalid memory address or nil pointer dereference"
  | some resp =>
    if submitted.2 ≠ none then
      .returned (none, errorsWrap submitted.2 "error submitting request")
    else
      match resp.readAllBody with
      | (respBodyBytes, none) => .returned (some respBodyBytes, none)
      | (_, some e) =>
        .returned (none, errorsWrap (some e) "error reading response body")

end system

end Brigade

namespace Brigade

open kubernetes

/-! ## Helper lemmas on slicing -/

theorem len_nonneg (s : GoString) : 0 ≤ len s := by
  unfold len; exact Int.natCast_nonneg _

/-- A prefix slice `s[:n]` within bounds is `take n`. -/
theorem goSlice_head (s : GoString) (n : Nat) (h : n ≤ s.length) :
    goSlice s 0 n = some (s.take n) := by
  have h1 : (0 : Int) ≤ 0 ∧ (0 : Int) ≤ (n : Int) ∧ (n : Int) ≤ len s := by
    refine ⟨le_refl _, Int.natCast_nonneg _, ?_⟩
    unfold len; exact_mod_cast h
  simp [goSlice, h1]

/-- A suffix slice `s[len(s)-k:]` within bounds is `drop (length - k)`. -/
theorem goSlice_tail (s : GoString) (k : Nat) (h : k ≤ s.length) :
    goSlice s (len s - k) (len s) = some (s.drop (s.length - k)) := by
  have hk : (k : Int) ≤ (s.length : Int) := by exact_mod_cast h
  have h1 : (0 : Int) ≤ len s - k ∧ len s - k ≤ len s ∧ len s ≤ len s := by
    unfold len; omega
  have h2 : (len s - (k : Int)).toNat = s.length - k := by
    unfold len; omega
  have h3 : (len s).toNat = s.length := by unfold len; omega
  simp only [goSlice, h1, and_self, if_true, h2, h3]
  congr 1
  apply List.take_of_length_le
  simp only [List.length_drop]
  omega

/-- What `GenerateLabel` computes, case by case. -/
theorem GenerateLabel_eq (s : GoString) :
    GenerateLabel s =
      some (if s.length ≤ 63 then s
            else s.take 54 ++ ascii "..." ++ s.drop (s.length - 6)) := by
  unfold GenerateLabel
  by_cases h : s.length ≤ 63
  · have : ¬ (len s > 63) := by unfold len; omega
    simp [this, h]
  · have hgt : len s > 63 := by unfold len; omega
    have hp := goSlice_head s 54 (by omega)
    have hs := goSlice_tail s 6 (by omega)
    simp only [Nat.cast_ofNat] at hp hs
    simp only [hgt, if_true, hp, hs, h, if_false]

/-- The label `GenerateLabel` returns has at most 63 bytes. -/
theorem GenerateLabel_short (s : GoString) :
    ∃ r, GenerateLabel s = some r ∧ r.length ≤ 63 := by
  refine ⟨_, GenerateLabel_eq s, ?_⟩
  by_cases h : s.length ≤ 63
  · simp only [h, if_true]
  · have h3 : (ascii "...").length = 3 := rfl
    simp only [h, if_false, List.length_append, List.length_take,
      List.length_drop, h3]
    omega

/-! ## `GenerateLabel` -/

/-- C1: for every string `s`, `GenerateLabel(s)` returns (it does not panic)
and the label it returns is at most 63 bytes long. -/
theorem GenerateLabel_length_le_63 (s : GoString) :
    ∃ r, GenerateLabel s = some r ∧ len r ≤ 63 := by
  refine ⟨_, GenerateLabel_eq s, ?_⟩
  unfold len
  by_cases h : s.length ≤ 63
  · simp only [h, if_true]; exact_mod_cast h
  · have h3 : (ascii "...").length = 3 := rfl
    simp only [h, if_false, List.length_append, List.length_take,
      List.length_drop, h3]
    omega

/-- C2: `GenerateLabel(s)` is `s` when `len(s) ≤ 63`, and otherwise
`s[0:54] + "..." + s[len(s)-6:len(s)]`, that is the first 54 bytes of `s`,
three dots, and the last 6 bytes of `s`; in the second case both slice
expressions are within bounds (they evaluate, to exactly 54 and 6 bytes). -/
theorem GenerateLabel_spec (s : GoString) :
    GenerateLabel s =
        some (if len s ≤ 63 then s
              else s.take 54 ++ [46, 46, 46] ++ s.drop (s.length - 6)) ∧
      (63 < len s →
        goSlice s 0 54 = some (s.take 54) ∧
        goSlice s (len s - 6) (len s) = some (s.drop (s.length - 6)) ∧
        (s.take 54).length = 54 ∧ (s.drop (s.length - 6)).length = 6) := by
  constructor
  · rw [GenerateLabel_eq]
    have hd : ascii "..." = [46, 46, 46] := rfl
    have hc : (len s ≤ 63) ↔ (s.length ≤ 63) := by unfold len; omega
    by_cases h : s.length ≤ 63
    · simp only [h, hc.mpr h, if_true]
    · have h2 : ¬ len s ≤ 63 := fun h3 => h (hc.mp h3)
      simp only [h, h2, if_false, hd]
  · intro h
    have hl : 63 < s.length := by unfold len at h; omega
    have hp := goSlice_head s 54 (by omega)
    have hs := goSlice_tail s 6 (by omega)
    simp only [Nat.cast_ofNat] at hp hs
    refine ⟨hp, hs, ?_, ?_⟩
    · rw [List.length_take]; omega
    · rw [List.length_drop]; omega

/-- C2, at a label of 64 bytes `a`: both slices evaluate. -/
theorem GenerateLabel_spec_witness :
    63 < len (List.replicate 64 (97 : UInt8)) ∧
      goSlice (List.replicate 64 (97 : UInt8)) 0 54
        = some (List.replicate 54 97) ∧
      GenerateLabel (List.replicate 64 (97 : UInt8))
        = some (List.replicate 54 97 ++ [46, 46, 46] ++ List.replicate 6 97) :=
  ⟨by decide,
   ((GenerateLabel_spec (List.replicate 64 (97 : UInt8))).2 (by decide)).1,
   (GenerateLabel_spec (List.replicate 64 (97 : UInt8))).1⟩

/-! ## Resource names -/

/-- C3: for every event ID `e`, the Worker pod name and the workspace volume
name are both exactly `e`. -/
theorem WorkerPodName_WorkspacePVCName_eq (e : GoString) :
    WorkerPodName e = e ∧ WorkspacePVCName e = e ∧
      WorkerPodName e = WorkspacePVCName e :=
  ⟨rfl, rfl, rfl⟩

/-- C4: for every event ID `e` and job name `j`, the Job pod name and the Job
secret name are both `e`, then the byte `-` (45), then `j`. -/
theorem JobPodName_JobSecretName_eq (e j : GoString) :
    JobPodName e j = e ++ [45] ++ j ∧ JobSecretName e j = e ++ [45] ++ j ∧
      JobPodName e j = JobSecretName e j :=
  ⟨rfl, rfl, rfl⟩

/-! ## Built-in principals -/

section Principals

open libAuthz libAuthz.Role core core.ProjectRole authn

/-- The permission check succeeds exactly when some assignment has the
required role and either the required scope or the global scope. -/
theorem permissionCheck_iff (as : List RoleAssignment) (R : Role)
    (S : GoString) :
    permissionCheck as R S = true ↔
      ∃ ra ∈ as, ra.Role = R ∧ (ra.Scope = S ∨ ra.Scope = RoleScopeGlobal) := by
  simp [permissionCheck]

/-- C5: for every event ID `e`, the Worker principal for `e` holds exactly two
role assignments: Reader without a scope, and Worker with scope `e`. -/
theorem worker_RoleAssignments (e : GoString) :
    (worker e).RoleAssignments =
        [ { Role := RoleReader, Scope := [] }, { Role := RoleWorker, Scope := e } ] ∧
      (worker e).RoleAssignments.length = 2 ∧
      ∀ ra : RoleAssignment, ra ∈ (worker e).RoleAssignments ↔
        (ra.Role = RoleReader ∧ ra.Scope = []) ∨
        (ra.Role = RoleWorker ∧ ra.Scope = e) := by
  refine ⟨rfl, rfl, ?_⟩
  intro ra
  cases ra with
  | mk r sc =>
    simp [workerPrincipal.RoleAssignments, worker]

/-- C6, as stated, fails: the Worker principal of an Event whose ID is `*`
passes the check for role Worker with required scope `e2`, another Event. -/
theorem worker_permissionCheck_star :
    permissionCheck (worker (ascii "*")).RoleAssignments RoleWorker (ascii "e2")
        = true ∧
      ascii "*" ≠ ascii "e2" := by
  decide

/-- C6, amended: the Worker principal for event `e` passes the check for role
Worker with required scope `e2` if and only if `e = e2` or `e` is the global
scope `*`; so for every event ID `e` other than `*`, it passes if and only if
`e = e2`. -/
theorem worker_permissionCheck_iff (e e2 : GoString) :
    (permissionCheck (worker e).RoleAssignments RoleWorker e2 = true ↔
        e = e2 ∨ e = RoleScopeGlobal) ∧
      (e ≠ RoleScopeGlobal →
        (permissionCheck (worker e).RoleAssignments RoleWorker e2 = true ↔
          e = e2)) := by
  have h : permissionCheck (worker e).RoleAssignments RoleWorker e2 = true ↔
      e = e2 ∨ e = RoleScopeGlobal := by
    simp [permissionCheck, workerPrincipal.RoleAssignments, worker]
  refine ⟨h, fun hne => ?_⟩
  rw [h]
  constructor
  · rintro (h1 | h1)
    · exact h1
    · exact absurd h1 hne
  · exact Or.inl

/-- C6, amended, at the events `e1` and `e2`: the Worker of `e1` passes the
check for its own Event and fails it for `e2`. -/
theorem worker_permissionCheck_iff_witness :
    ascii "e1" ≠ RoleScopeGlobal ∧
      permissionCheck (worker (ascii "e1")).RoleAssignments RoleWorker
        (ascii "e1") = true ∧
      ¬ permissionCheck (worker (ascii "e1")).RoleAssignments RoleWorker
        (ascii "e2") = true :=
  ⟨by decide,
   ((worker_permissionCheck_iff (ascii "e1") (ascii "e1")).2 (by decide)).mpr rfl,
   fun h =>
     absurd
       (((worker_permissionCheck_iff (ascii "e1") (ascii "e2")).2
         (by decide)).mp h)
       (by decide)⟩

/-- C7: the Root principal's system-level role assignments are exactly Admin,
Reader, EventCreator with the global scope `*`, and ProjectCreator; its
project-level role assignments are exactly ProjectAdmin, ProjectDeveloper and
ProjectUser, each with the global project scope `*`. -/
theorem root_RoleAssignments :
    root.RoleAssignments =
        [ { Role := RoleAdmin, Scope := [] },
          { Role := RoleReader, Scope := [] },
          { Role := RoleEventCreator, Scope := [42] },
          { Role := RoleProjectCreator, Scope := [] } ] ∧
      root.ProjectRoleAssignments =
        [ { ProjectID := [42], Role := RoleProjectAdmin },
          { ProjectID := [42], Role := RoleProjectDeveloper },
          { ProjectID := [42], Role := RoleProjectUser } ] :=
  ⟨rfl, rfl⟩

/-- C8: the Root principal passes the permission check for role EventCreator
for every required scope (event source) `S`. -/
theorem root_permissionCheck_EventCreator (S : GoString) :
    permissionCheck root.RoleAssignments RoleEventCreator S = true := by
  rw [permissionCheck_iff]
  exact ⟨{ Role := RoleEventCreator, Scope := RoleScopeGlobal },
    by simp [rootPrincipal.RoleAssignments], rfl, Or.inr rfl⟩

/-- C9: the Scheduler singleton's role assignments are exactly Reader and
Scheduler, the Observer singleton's are exactly Reader and Observer, and none
of the four has a scope. -/
theorem scheduler_observer_RoleAssignments :
    scheduler.RoleAssignments =
        [ { Role := RoleReader, Scope := [] },
          { Role := RoleScheduler, Scope := [] } ] ∧
      authn.observer.RoleAssignments =
        [ { Role := RoleReader, Scope := [] },
          { Role := RoleObserver, Scope := [] } ] :=
  ⟨rfl, rfl⟩

end Principals

/-! ## Observer configuration -/

section ObserverConfig

open observer

/-- C10, as stated, fails: with `HEALTHCHECK_INTERVAL` set to `10s`, a value
that reads as the duration of 10 seconds, `getObserverConfig` returns without
an error a configuration whose healthcheck interval is 30 seconds. -/
theorem getObserverConfig_ignores_HEALTHCHECK_INTERVAL :
    environHealthcheck10s (ascii "HEALTHCHECK_INTERVAL") = some (ascii "10s") ∧
      parseDuration10s (ascii "10s") = some (10 * Second) ∧
      (getObserverConfig parseDuration10s environHealthcheck10s).2 = none ∧
      (getObserverConfig parseDuration10s
        environHealthcheck10s).1.healthcheckInterval = 30 * Second ∧
      (getObserverConfig parseDuration10s
        environHealthcheck10s).1.healthcheckInterval ≠ 10 * Second := by
  decide

/-- C10, amended: `getObserverConfig` reads no `HEALTHCHECK_INTERVAL`
variable; in every environment, and whatever values read as durations, the
healthcheck interval it returns is 30 seconds (30 000 000 000 ns). -/
theorem getObserverConfig_healthcheckInterval
    (parseDuration : GoString → Option Duration) (environ : Environ) :
    (getObserverConfig parseDuration environ).1.healthcheckInterval
        = 30 * Second ∧
      30 * Second = (30000000000 : Int) :=
  ⟨rfl, rfl⟩

end ObserverConfig

/-! ## The Observer supervisor -/

section ObserverRun

open observer

/-- C11: `run` returns exactly the value received on the fatal-error channel
when a loop reports one, having called `cancel` right after the receive and
before it waits for the loops; it returns `ctx.Err()` when the context is done
first; and the returned error is non-nil in both cases: when the reported
error is one (non-nil), and when `ctx.Done()` is closed.  Neither depends on
how the wait for the loops ends. -/
theorem run_returns_observed_error (ctx : Context) (e : error)
    (second : SecondSelect) :
    (run ctx (.errCh e) second).1 = e ∧
      (run ctx (.errCh e) second).2.take 6 =
        [Step.goRunHealthcheckLoop, Step.goSyncWorkerPods, Step.goSyncJobPods,
          Step.recvErrCh, Step.cancel, Step.goWait] ∧
      (run ctx .ctxDone second).1 = ctx.Err ∧
      (e ≠ none → (run ctx (.errCh e) second).1 ≠ none) ∧
      (ctx.Done = true → (run ctx .ctxDone second).1 ≠ none) := by
  refine ⟨rfl, ?_, rfl, fun h => h, ?_⟩
  · cases second <;> rfl
  · intro h
    show ctx.Err ≠ none
    cases hc : ctx.Err with
    | none => simp [Context.Done, hc] at h
    | some v => simp

/-- C11, at a failed ping and at a cancelled context. -/
theorem run_returns_observed_error_witness :
    (run ⟨some "context canceled"⟩ (.errCh (some "ping failed"))
        .timeAfter).1 ≠ none ∧
      (run ⟨some "context canceled"⟩ .ctxDone .timeAfter).1 ≠ none :=
  ⟨(run_returns_observed_error ⟨some "context canceled"⟩ (some "ping failed")
      .timeAfter).2.2.2.1 (by decide),
   (run_returns_observed_error ⟨some "context canceled"⟩ (some "ping failed")
      .timeAfter).2.2.2.2 (by decide)⟩

end ObserverRun

/-! ## `kubeConfigPath` -/

section KubeConfigPath

open commands

/-- C12: `kubeConfigPath` returns the `--kubeconfig` flag value whenever that
is non-empty, whatever `KUBECONFIG` holds; otherwise the value of the
`KUBECONFIG` environment variable whenever it is set; otherwise the expansion
of `$HOME/.kube/config`. -/
theorem kubeConfigPath_precedence (ExpandEnv : GoString → GoString)
    (environ : observer.Environ) (flag : GoString) :
    (flag ≠ [] → kubeConfigPath ExpandEnv environ flag = flag) ∧
      (∀ v, flag = [] → environ (ascii "KUBECONFIG") = some v →
        kubeConfigPath ExpandEnv environ flag = v) ∧
      (flag = [] → environ (ascii "KUBECONFIG") = none →
        kubeConfigPath ExpandEnv environ flag =
          ExpandEnv (ascii "$HOME/.kube/config")) := by
  refine ⟨fun h => ?_, fun v h hv => ?_, fun h hv => ?_⟩
  · simp [kubeConfigPath, h]
  · have hv2 : environ kubeConfig = some v := hv
    simp [kubeConfigPath, h, hv2]
  · have hv2 : environ kubeConfig = none := hv
    simp [kubeConfigPath, h, hv2]

/-- C12, at a flag `f` with `KUBECONFIG` set to `k`, at no flag with
`KUBECONFIG` set to `k`, and at no flag with nothing set. -/
theorem kubeConfigPath_precedence_witness :
    kubeConfigPath id (fun _ => some (ascii "k")) (ascii "f") = ascii "f" ∧
      kubeConfigPath id (fun _ => some (ascii "k")) [] = ascii "k" ∧
      kubeConfigPath id (fun _ => none) [] = ascii "$HOME/.kube/config" :=
  ⟨(kubeConfigPath_precedence id (fun _ => some (ascii "k")) (ascii "f")).1
      (by decide),
   (kubeConfigPath_precedence id (fun _ => some (ascii "k")) []).2.1
      (ascii "k") rfl rfl,
   (kubeConfigPath_precedence id (fun _ => none) []).2.2 rfl rfl⟩

end KubeConfigPath

/-! ## `UnversionedPing` -/

section Ping

open system

/-- C13, at a failed submission that yields no response: `UnversionedPing`
does not return `nil` bytes with the wrapped error; it panics, because the
deferred `resp.Body.Close()` is set up on the `nil` response before the error
is looked at. -/
theorem UnversionedPing_panics_without_response :
    UnversionedPing (none, some (GoError.mk "connection refused")) =
        .panicked "invalid memory address or nil pointer dereference" ∧
      UnversionedPing (none, some (GoError.mk "connection refused")) ≠
        .returned (none,
          some (GoError.wrap (GoError.mk "connection refused")
            "error submitting request")) := by
  decide

/-- Whenever `SubmitRequest` yields a response, `UnversionedPing` does as
documented: a submission error is returned wrapped, with `nil` bytes, and
otherwise the bytes of the body that were read are returned unchanged. -/
theorem UnversionedPing_with_response (resp : Response) (err : GoError)
    (body : List UInt8) :
    UnversionedPing (some resp, some err) =
        .returned (none, some (GoError.wrap err "error submitting request")) ∧
      UnversionedPing (some ⟨(body, none)⟩, none) =
        .returned (some body, none) := by
  constructor <;> simp [UnversionedPing, errorsWrap]

end Ping

/-! ## Component roles -/

section ComponentRoles

open libAuthz libAuthz.Role authn

/-- C14: among the built-in principals (Root, the Scheduler singleton, the
Observer singleton and every Worker), the Scheduler singleton alone holds the
Scheduler role, the Observer singleton alone holds the Observer role, and the
Worker principals alone hold the Worker role. -/
theorem component_roles_unique (p : Principal) :
    (p.holds RoleScheduler = true ↔ p = .ofScheduler scheduler) ∧
      (p.holds RoleObserver = true ↔ p = .ofObserver authn.observer) ∧
      (p.holds RoleWorker = true ↔ ∃ e, p = .ofWorker (worker e)) := by
  cases p with
  | ofRoot r =>
    refine ⟨?_, ?_, ?_⟩ <;>
      simp [Principal.holds, Principal.RoleAssignments,
        rootPrincipal.RoleAssignments]
  | ofScheduler s =>
    cases s
    refine ⟨?_, ?_, ?_⟩ <;>
      simp [Principal.holds, Principal.RoleAssignments,
        schedulerPrincipal.RoleAssignments, scheduler]
  | ofObserver o =>
    cases o
    refine ⟨?_, ?_, ?_⟩ <;>
      simp [Principal.holds, Principal.RoleAssignments,
        observerPrincipal.RoleAssignments, authn.observer]
  | ofWorker w =>
    cases w with
    | mk e =>
      refine ⟨?_, ?_, ?_⟩ <;>
        simp [Principal.holds, Principal.RoleAssignments,
          workerPrincipal.RoleAssignments, worker]

end ComponentRoles

/-! ## Keys and names do not collide -/

section Names

open observer

/-- Two strings joined by a separator that the first part does not contain
are determined by the joined string. -/
theorem append_sep_inj (c : UInt8) :
    ∀ (a a2 b b2 : GoString), c ∉ a → c ∉ a2 →
      a ++ c :: b = a2 ++ c :: b2 → a = a2 ∧ b = b2 := by
  intro a
  induction a with
  | nil =>
    intro a2 b b2 _ h2 h
    cases a2 with
    | nil =>
      simp only [List.nil_append, List.cons.injEq, true_and] at h
      exact ⟨rfl, h⟩
    | cons x xs =>
      simp only [List.nil_append, List.cons_append, List.cons.injEq] at h
      exact absurd (h.1 ▸ List.mem_cons_self _ _) h2
  | cons y ys ih =>
    intro a2 b b2 h1 h2 h
    cases a2 with
    | nil =>
      simp only [List.nil_append, List.cons_append, List.cons.injEq] at h
      exact absurd (h.1 ▸ List.mem_cons_self _ _) h1
    | cons x xs =>
      simp only [List.cons_append, List.cons.injEq] at h
      have h3 := ih xs b b2 (fun hm => h1 (List.mem_cons_of_mem _ hm))
        (fun hm => h2 (List.mem_cons_of_mem _ hm)) h.2
      exact ⟨by rw [h.1, h3.1], h3.2⟩

/-- C15: `namespacedPodName(ns, name)` is `ns`, then the byte `:` (58), then
`name`; and for namespaces that contain no `:`, equal keys come from equal
namespaces and equal pod names. -/
theorem namespacedPodName_inj (ns1 name1 ns2 name2 : GoString) :
    namespacedPodName ns1 name1 = ns1 ++ [58] ++ name1 ∧
      ((58 : UInt8) ∉ ns1 → (58 : UInt8) ∉ ns2 →
        namespacedPodName ns1 name1 = namespacedPodName ns2 name2 →
        ns1 = ns2 ∧ name1 = name2) := by
  refine ⟨rfl, fun h1 h2 h => ?_⟩
  have h3 : ns1 ++ 58 :: name1 = ns2 ++ 58 :: name2 := by
    have e1 : namespacedPodName ns1 name1 = ns1 ++ 58 :: name1 := by
      show ns1 ++ [58] ++ name1 = _
      simp
    have e2 : namespacedPodName ns2 name2 = ns2 ++ 58 :: name2 := by
      show ns2 ++ [58] ++ name2 = _
      simp
    rw [← e1, ← e2]; exact h
  exact append_sep_inj 58 ns1 ns2 name1 name2 h1 h2 h3

/-- C15, at the key of pod `p` in namespace `ns`. -/
theorem namespacedPodName_inj_witness :
    (58 : UInt8) ∉ ascii "ns" ∧
      namespacedPodName (ascii "ns") (ascii "p") = ascii "ns:p" ∧
      (ascii "ns" = ascii "ns" ∧ ascii "p" = ascii "p") :=
  ⟨by decide, by decide,
   (namespacedPodName_inj (ascii "ns") (ascii "p") (ascii "ns") (ascii "p")).2
     (by decide) (by decide) rfl⟩

/-- C16: within one Event the derived pod names never collide: for job names
`j1 ≠ j2` the Job pod names differ, and no Job pod name is the Worker pod
name. -/
theorem JobPodName_no_collision (e j1 j2 j : GoString) :
    (j1 ≠ j2 → JobPodName e j1 ≠ JobPodName e j2) ∧
      JobPodName e j ≠ WorkerPodName e := by
  constructor
  · intro hne h
    apply hne
    have h2 : e ++ (ascii "-" ++ j1) = e ++ (ascii "-" ++ j2) := by
      simpa [JobPodName, List.append_assoc] using h
    exact List.append_cancel_left (List.append_cancel_left h2)
  · intro h
    have h2 := congrArg List.length h
    have h3 : (ascii "-").length = 1 := rfl
    simp only [JobPodName, WorkerPodName, List.length_append, h3] at h2
    omega

/-- C16, at the jobs `a` and `b` of event `e`. -/
theorem JobPodName_no_collision_witness :
    ascii "a" ≠ ascii "b" ∧
      JobPodName (ascii "e") (ascii "a") ≠ JobPodName (ascii "e") (ascii "b") :=
  ⟨by decide,
   (JobPodName_no_collision (ascii "e") (ascii "a") (ascii "b") (ascii "a")).1
     (by decide)⟩

/-- C17: `GenerateLabel` is idempotent: applied to a label it returned, it
returns that label again. -/
theorem GenerateLabel_idempotent (s : GoString) :
    (GenerateLabel s).bind GenerateLabel = GenerateLabel s ∧
      ∃ r, GenerateLabel s = some r ∧ GenerateLabel r = some r := by
  obtain ⟨r, hr, hlen⟩ := GenerateLabel_short s
  have hrr : GenerateLabel r = some r := by
    rw [GenerateLabel_eq]
    simp only [hlen, if_true]
  exact ⟨by rw [hr]; exact hrr, r, hr, hrr⟩

end Names

end Brigade
